import Mathlib

/-!
Shallow embedding of the dynamic uniform buffer arena
(src/client/render/wgpu/uniform.rs) and of the deferred renderer
(src/client/render/world/deferred.rs).

Conventions of the embedding:
* Machine bytes are `Nat` values (< 256 where it matters); byte buffers are
  `List Nat`.
* A value of the element type `T` is represented by its raw byte image
  `any_as_bytes(&val)`, a `List Nat` whose length is `size_of::<T>()`.
  The type `T` itself is abstracted by the two numbers `size_of::<T>()`
  and `align_of::<T>()`.
* A Rust `panic!` (including the implicit panics of slice indexing and
  `copy_from_slice`) is modelled by returning `none`: a panicking call
  produces no successor state.
* `failure::Error` results are modelled by `Except String`.
-/

namespace Richter

/-- Capacity of the dynamic uniform buffer
(`DYNAMIC_UNIFORM_BUFFER_SIZE` in uniform.rs). -/
def DYNAMIC_UNIFORM_BUFFER_SIZE : Nat := 16384

/-- Minimum uniform-buffer offset alignment
(`DYNAMIC_UNIFORM_BUFFER_ALIGNMENT` in uniform.rs). -/
def DYNAMIC_UNIFORM_BUFFER_ALIGNMENT : Nat := 256

/-- State of a `DynamicUniformBuffer<T>`.

* `outstanding` models the reference count of the shared `Rc<()>` token in
  field `_rc`, minus the copy held by the arena itself: it is the number of
  live `DynamicUniformBufferBlock` handles cloned from the current token.
* `allocated` is the `allocated` cursor (`Cell<wgpu::BufferSize>`).
* `update_buf` is the host-side staging buffer `update_buf: Vec<u8>`.

The GPU-side `inner` buffer is opaque here; `flush` exposes exactly the
bytes transferred to it. -/
structure DynamicUniformBuffer where
  outstanding : Nat
  allocated : Nat
  update_buf : List Nat
deriving Repr, DecidableEq

/-- A `DynamicUniformBufferBlock<T>`: an address into the arena. The `_rc`
clone it carries is accounted for in `DynamicUniformBuffer.outstanding`. -/
structure DynamicUniformBufferBlock where
  addr : Nat
deriving Repr, DecidableEq

/-- `DynamicUniformBufferBlock::offset`: `self.addr as wgpu::DynamicOffset`,
a cast from u64 to u32. -/
def DynamicUniformBufferBlock.offset (b : DynamicUniformBufferBlock) : Nat :=
  b.addr % 2 ^ 32

/-- `DynamicUniformBuffer::new`: the construction-time assertion
`align_of::<T>() % DYNAMIC_UNIFORM_BUFFER_ALIGNMENT == 0`, modelled as a
predicate on `align_of::<T>()`. -/
def new_assertion (alignT : Nat) : Prop :=
  alignT % DYNAMIC_UNIFORM_BUFFER_ALIGNMENT = 0

instance (alignT : Nat) : Decidable (new_assertion alignT) := by
  unfold new_assertion; infer_instance

/-- `DynamicUniformBuffer::new`: fresh token, zero cursor, staging buffer of
`DYNAMIC_UNIFORM_BUFFER_SIZE` zero bytes (`update_buf.resize(..., 0)`). -/
def DynamicUniformBuffer.new : DynamicUniformBuffer :=
  { outstanding := 0
    allocated := 0
    update_buf := List.replicate DYNAMIC_UNIFORM_BUFFER_SIZE 0 }

/-- `DynamicUniformBuffer::block_size`:
`DYNAMIC_UNIFORM_BUFFER_ALIGNMENT.max(size_of::<T>())`. -/
def block_size (sizeT : Nat) : Nat :=
  max DYNAMIC_UNIFORM_BUFFER_ALIGNMENT sizeT

/-- `DynamicUniformBuffer::write_block`: overwrite
`update_buf[block.addr .. block.addr + block_size()]` with the raw bytes of
`val`. The slice indexing panics when the range end exceeds the buffer
length, and `copy_from_slice` panics when `val`'s byte length differs from
`block_size()`; both panics yield `none`. -/
def write_block (sizeT : Nat) (st : DynamicUniformBuffer)
    (block : DynamicUniformBufferBlock) (val : List Nat) :
    Option DynamicUniformBuffer :=
  let start := block.addr
  let stop := start + block_size sizeT
  if stop ≤ st.update_buf.length ∧ val.length = block_size sizeT then
    some { st with
      update_buf :=
        st.update_buf.take start ++ val ++ st.update_buf.drop stop }
  else
    none

/-- `DynamicUniformBuffer::allocate`: panics (`none`) when
`allocated + block_size() > DYNAMIC_UNIFORM_BUFFER_SIZE`; otherwise reserves
the next block at the cursor, advances the cursor, clones the liveness token
into the new block, and stages the initial value via `write_block`. -/
def allocate (sizeT : Nat) (st : DynamicUniformBuffer) (val : List Nat) :
    Option (DynamicUniformBuffer × DynamicUniformBufferBlock) :=
  let allocated := st.allocated
  let size := block_size sizeT
  if allocated + size > DYNAMIC_UNIFORM_BUFFER_SIZE then
    none
  else
    let addr := allocated
    let st1 : DynamicUniformBuffer :=
      { st with
        allocated := allocated + size
        outstanding := st.outstanding + 1 }
    let block : DynamicUniformBufferBlock := { addr := addr }
    match write_block sizeT st1 block val with
    | some st2 => some (st2, block)
    | none => none

/-- `DynamicUniformBuffer::clear`: replace the shared token with a fresh one
and try to unwrap the old one. `Rc::try_unwrap` succeeds exactly when no
block holds a clone (`outstanding = 0`); then the cursor is reset. On
failure the old token is put back (`self._rc.replace(rc)`) and `bail!`
returns the error, leaving the state unchanged. -/
def clear (st : DynamicUniformBuffer) :
    Except String Unit × DynamicUniformBuffer :=
  if st.outstanding = 0 then
    (Except.ok (), { st with allocated := 0 })
  else
    (Except.error
      "Can\x27t clear uniform buffer: there are outstanding references to allocated blocks.",
     st)

/-- `DynamicUniformBuffer::flush`:
`queue.write_buffer(&self.inner, 0, &self.update_buf)` — the bytes
transferred to the GPU-resident buffer are exactly the staging buffer. -/
def flush (st : DynamicUniformBuffer) : List Nat :=
  st.update_buf

/-- Dropping a `DynamicUniformBufferBlock` drops its `Rc<()>` clone,
decrementing the shared token's reference count. -/
def drop_block (st : DynamicUniformBuffer) : DynamicUniformBuffer :=
  { st with outstanding := st.outstanding - 1 }

/-- Folding `allocate` over a list of initial values, collecting the
returned block handles; `none` as soon as one call panics. -/
def allocate_seq (sizeT : Nat) (st : DynamicUniformBuffer) :
    List (List Nat) →
    Option (DynamicUniformBuffer × List DynamicUniformBufferBlock)
  | [] => some (st, [])
  | v :: vs =>
    match allocate sizeT st v with
    | none => none
    | some (st1, b) =>
      match allocate_seq sizeT st1 vs with
      | none => none
      | some (st2, bs) => some (st2, b :: bs)

/-! Deferred renderer (src/client/render/world/deferred.rs).

`MAX_LIGHTS` lives in `client/entity`, outside the two source files; all
definitions below are parameterized by its value `ML`, so every theorem
holds for the repository's actual constant. `f32` values are represented
by their IEEE-754 binary32 bit patterns as `Nat` (what `any_as_bytes`
exposes); `0.0` has bits 0 and `1.0` has bits 0x3F800000. -/

/-- IEEE-754 binary32 bit pattern of `0.0f32`. -/
def f32_bits_zero : Nat := 0

/-- IEEE-754 binary32 bit pattern of `1.0f32`. -/
def f32_bits_one : Nat := 0x3F800000

/-- `PointLight` (repr(C)): `origin: Vector3<f32>`, `radius: f32`; fields
hold f32 bit patterns. -/
structure PointLight where
  origin : Nat × Nat × Nat
  radius : Nat
deriving Repr, DecidableEq

/-- `DeferredUniforms` (repr(C, align(256))). `inv_projection` is the
`[[f32; 4]; 4]` matrix (row i, lane j of bit patterns), `light_count` a
u32, `_pad` the three u32 padding words, `lights` the `[PointLight; MAX_LIGHTS]`
array (its length is `MAX_LIGHTS` wherever that matters). -/
structure DeferredUniforms where
  inv_projection : Fin 4 → Fin 4 → Nat
  light_count : Nat
  _pad : Fin 3 → Nat
  lights : List PointLight

/-- Little-endian byte image of a 32-bit word. -/
def encode_u32 (x : Nat) : List Nat :=
  [x % 256, x / 256 % 256, x / 256 ^ 2 % 256, x / 256 ^ 3 % 256]

/-- repr(C) byte image of a `PointLight`: three origin lanes then the
radius, 16 bytes, no padding (all fields are 4-byte aligned). -/
def encode_PointLight (l : PointLight) : List Nat :=
  encode_u32 l.origin.1 ++ encode_u32 l.origin.2.1 ++
    encode_u32 l.origin.2.2 ++ encode_u32 l.radius

/-- Byte image of one `[f32; 4]` row of `inv_projection`. -/
def encode_row (r : Fin 4 → Nat) : List Nat :=
  encode_u32 (r 0) ++ encode_u32 (r 1) ++ encode_u32 (r 2) ++ encode_u32 (r 3)

/-- Byte image of the `[[f32; 4]; 4]` matrix: four rows in order. -/
def encode_mat (m : Fin 4 → Fin 4 → Nat) : List Nat :=
  encode_row (m 0) ++ encode_row (m 1) ++ encode_row (m 2) ++ encode_row (m 3)

/-- Byte image of the `_pad: [u32; 3]` field. -/
def encode_pad (p : Fin 3 → Nat) : List Nat :=
  encode_u32 (p 0) ++ encode_u32 (p 1) ++ encode_u32 (p 2)

/-- Byte image of the `lights: [PointLight; MAX_LIGHTS]` array: the
elements' images in order. -/
def encode_lights : List PointLight → List Nat
  | [] => []
  | l :: ls => encode_PointLight l ++ encode_lights ls

/-- `size_of::<DeferredUniforms>()` for a given `MAX_LIGHTS`: the repr(C)
field span 64 + 4 + 12 + 16·ML = 80 + 16·ML bytes, rounded up to the
`align(256)` attribute's alignment. -/
def size_of_DeferredUniforms (ML : Nat) : Nat :=
  (80 + 16 * ML + 255) / 256 * 256

/-- `any_as_bytes(&uniforms)`: the repr(C) field images in declaration
order, then the trailing alignment padding up to
`size_of::<DeferredUniforms>()` (padding bytes modelled as 0). -/
def any_as_bytes_DeferredUniforms (ML : Nat) (u : DeferredUniforms) :
    List Nat :=
  let fields :=
    encode_mat u.inv_projection ++ encode_u32 u.light_count ++
      encode_pad u._pad ++ encode_lights u.lights
  fields ++ List.replicate (size_of_DeferredUniforms ML - fields.length) 0

/-- `Matrix4::identity().into()`: the 4x4 identity matrix as f32 bit
patterns. -/
def Matrix4_identity : Fin 4 → Fin 4 → Nat :=
  fun i j => if i = j then f32_bits_one else f32_bits_zero

/-- `Vector3::zero()` as f32 bit patterns. -/
def Vector3_zero : Nat × Nat × Nat := (0, 0, 0)

/-- The `DeferredUniforms` value that `DeferredPipeline::new` writes into
the uniform buffer it creates: identity inverse projection, zero light
count, zeroed padding, and `MAX_LIGHTS` copies of the zero light. -/
def deferred_initial_uniforms (ML : Nat) : DeferredUniforms :=
  { inv_projection := Matrix4_identity
    light_count := 0
    _pad := fun _ => 0
    lights := List.replicate ML { origin := Vector3_zero, radius := f32_bits_zero } }

/-- `DeferredPipeline::new`: the initial contents of the dedicated uniform
buffer built by `device.create_buffer_with_data(any_as_bytes(&DeferredUniforms {...}), ...)`. -/
def DeferredPipeline_new_uniform_buffer (ML : Nat) : List Nat :=
  any_as_bytes_DeferredUniforms ML (deferred_initial_uniforms ML)

/-- The GPU buffers `record_draw` touches: the deferred pipeline's
dedicated uniform buffer and the quad pipeline's full-screen-quad vertex
buffer. -/
inductive BufferId where
  | deferredUniform
  | quadVertex
deriving Repr, DecidableEq

/-- Render pipelines reachable from `record_draw`. -/
inductive PipelineId where
  | deferred
deriving Repr, DecidableEq

/-- Bind groups reachable from `record_draw`: the renderer's own
`self.bind_group`. -/
inductive BindGroupId where
  | deferredRenderer
deriving Repr, DecidableEq

/-- One observable side effect of the queue / render pass. `draw a b c d`
records `pass.draw(a..b, c..d)`. -/
inductive RenderCmd where
  | writeBuffer (buffer : BufferId) (offset : Nat) (data : List Nat)
  | setPipeline (p : PipelineId)
  | setVertexBuffer (slot : Nat) (buffer : BufferId)
  | setBindGroup (index : Nat) (group : BindGroupId) (offsets : List Nat)
  | draw (v_start v_end i_start i_end : Nat)
deriving Repr, DecidableEq

/-- `DeferredRenderer::update_uniform_buffers`: one
`queue.write_buffer(uniform_buffer, 0, any_as_bytes(&uniforms))`. -/
def update_uniform_buffers (ML : Nat) (u : DeferredUniforms) :
    List RenderCmd :=
  [RenderCmd.writeBuffer BufferId.deferredUniform 0
    (any_as_bytes_DeferredUniforms ML u)]

/-- `DeferredRenderer::record_draw`: the side effects it performs, in
order. -/
def record_draw (ML : Nat) (u : DeferredUniforms) : List RenderCmd :=
  update_uniform_buffers ML u ++
    [RenderCmd.setPipeline PipelineId.deferred,
     RenderCmd.setVertexBuffer 0 BufferId.quadVertex,
     RenderCmd.setBindGroup 0 BindGroupId.deferredRenderer [],
     RenderCmd.draw 0 6 0 1]

/-! Theorems about the embedded operations. -/

/-- Splicing a segment into a list preserves its length. -/
theorem splice_length {α : Type} (l v : List α) (a n : Nat)
    (h : a + n ≤ l.length) (hv : v.length = n) :
    (l.take a ++ v ++ l.drop (a + n)).length = l.length := by
  simp [List.length_append, List.length_take, List.length_drop, hv]
  omega

/-- A splice leaves the prefix before the segment unchanged. -/
theorem splice_take {α : Type} (l v : List α) (a n : Nat)
    (h : a ≤ l.length) :
    (l.take a ++ v ++ l.drop (a + n)).take a = l.take a := by
  rw [List.append_assoc]
  exact List.take_left' (List.length_take_of_le h)

/-- A splice plants the segment exactly at its address. -/
theorem splice_drop_take {α : Type} (l v : List α) (a n : Nat)
    (h : a ≤ l.length) (hv : v.length = n) :
    ((l.take a ++ v ++ l.drop (a + n)).drop a).take n = v := by
  rw [List.append_assoc, List.drop_left' (List.length_take_of_le h)]
  exact List.take_left' hv

/-- A splice leaves the suffix after the segment unchanged. -/
theorem splice_drop {α : Type} (l v : List α) (a n : Nat)
    (h : a + n ≤ l.length) (hv : v.length = n) :
    (l.take a ++ v ++ l.drop (a + n)).drop (a + n) = l.drop (a + n) := by
  apply List.drop_left'
  rw [List.length_append,
    List.length_take_of_le (le_trans (Nat.le_add_right a n) h), hv]

/-- Evaluation of `write_block` when the range fits and the value's byte
length matches the block size. -/
theorem write_block_eq (sizeT : Nat) (st : DynamicUniformBuffer)
    (b : DynamicUniformBufferBlock) (v : List Nat)
    (hstop : b.addr + block_size sizeT ≤ st.update_buf.length)
    (hv : v.length = block_size sizeT) :
    write_block sizeT st b v =
      some { st with update_buf :=
        st.update_buf.take b.addr ++ v ++
          st.update_buf.drop (b.addr + block_size sizeT) } := by
  simp only [write_block]
  rw [if_pos ⟨hstop, hv⟩]

/-- Evaluation of `allocate` when the capacity check passes and the value's
byte length matches the block size. -/
theorem allocate_eq (sizeT : Nat) (st : DynamicUniformBuffer) (v : List Nat)
    (hcap : st.allocated + block_size sizeT ≤ DYNAMIC_UNIFORM_BUFFER_SIZE)
    (hstop : st.allocated + block_size sizeT ≤ st.update_buf.length)
    (hv : v.length = block_size sizeT) :
    allocate sizeT st v = some
      ({ outstanding := st.outstanding + 1
         allocated := st.allocated + block_size sizeT
         update_buf :=
           st.update_buf.take st.allocated ++ v ++
             st.update_buf.drop (st.allocated + block_size sizeT) },
       { addr := st.allocated }) := by
  simp only [allocate]
  rw [if_neg (by omega)]
  rw [write_block_eq sizeT _ _ v (by simpa using hstop) hv]

/-- C2: `clear()` succeeds if and only if zero block handles allocated
since the last successful clear are still live; on failure it returns the
recoverable error naming the outstanding allocated blocks and leaves the
cursor, the liveness token and the staging state unchanged (no partial
clear); on success it only resets the cursor. -/
theorem clear_succeeds_iff_no_outstanding (st : DynamicUniformBuffer) :
    ((clear st).1 = Except.ok () ↔ st.outstanding = 0) ∧
    (st.outstanding = 0 → (clear st).2 = { st with allocated := 0 }) ∧
    (st.outstanding ≠ 0 →
      (clear st).1 = Except.error
        "Can\x27t clear uniform buffer: there are outstanding references to allocated blocks." ∧
      (clear st).2 = st) := by
  by_cases h : st.outstanding = 0 <;> simp [clear, h]

/-- Witness for C2 at a concrete state with one outstanding handle. -/
theorem clear_succeeds_iff_no_outstanding_witness :
    (clear ⟨1, 512, [7]⟩).1 = Except.error
      "Can\x27t clear uniform buffer: there are outstanding references to allocated blocks." ∧
    (clear ⟨1, 512, [7]⟩).2 = ⟨1, 512, [7]⟩ :=
  (clear_succeeds_iff_no_outstanding ⟨1, 512, [7]⟩).2.2 (by decide)

/-- C3: when `allocated + block_size() > DYNAMIC_UNIFORM_BUFFER_SIZE`,
`allocate` panics: it produces no successor state at all — no advanced
cursor, no staged bytes, no truncated reservation. -/
theorem allocate_overflow_panics (sizeT : Nat) (st : DynamicUniformBuffer)
    (val : List Nat)
    (h : st.allocated + block_size sizeT > DYNAMIC_UNIFORM_BUFFER_SIZE) :
    allocate sizeT st val = none := by
  simp only [allocate]
  rw [if_pos h]

/-- Witness for C3 on a full arena. -/
theorem allocate_overflow_panics_witness :
    allocate 256 ⟨0, 16384, []⟩ [] = none :=
  allocate_overflow_panics 256 ⟨0, 16384, []⟩ [] (by decide)

/-- C4: for every element type accepted by the construction-time assertion
(`align_of::<T>() % 256 == 0`, with Rust's layout guarantee that
`align_of::<T>()` divides `size_of::<T>()`), `block_size()` equals
`max(256, size_of::<T>())`, so it is at least 256, at least the element's
raw size, and a multiple of the 256-byte alignment unit. -/
theorem block_size_spec (sizeT alignT : Nat)
    (hassert : new_assertion alignT) (hdvd : alignT ∣ sizeT) :
    block_size sizeT = max 256 sizeT ∧
    256 ≤ block_size sizeT ∧
    sizeT ≤ block_size sizeT ∧
    256 ∣ block_size sizeT := by
  have h256 : (256 : Nat) ∣ alignT := Nat.dvd_of_mod_eq_zero hassert
  have hsz : (256 : Nat) ∣ sizeT := h256.trans hdvd
  refine ⟨rfl, Nat.le_max_left _ _, Nat.le_max_right _ _, ?_⟩
  rcases Nat.le_total sizeT 256 with h | h
  · have : block_size sizeT = 256 := Nat.max_eq_left h
    rw [this]
  · have : block_size sizeT = sizeT := Nat.max_eq_right h
    rw [this]
    exact hsz

/-- Witness for C4 with a 512-byte element aligned to 256. -/
theorem block_size_spec_witness :
    block_size 512 = max 256 512 ∧
    256 ≤ block_size 512 ∧
    512 ≤ block_size 512 ∧
    256 ∣ block_size 512 :=
  block_size_spec 512 256 (by decide) (by decide)

/-- C9: a successful `clear()` resets only the allocation cursor; the
staging bytes are untouched, so a subsequent `flush` still transfers
exactly the bytes staged before the clear. -/
theorem clear_preserves_staging (st : DynamicUniformBuffer)
    (h : st.outstanding = 0) :
    (clear st).1 = Except.ok () ∧
    (clear st).2.allocated = 0 ∧
    (clear st).2.update_buf = st.update_buf ∧
    flush (clear st).2 = flush st := by
  simp [clear, flush, h]

/-- Witness for C9 at a concrete cleared state with staged bytes. -/
theorem clear_preserves_staging_witness :
    (clear ⟨0, 512, [1, 2, 3]⟩).1 = Except.ok () ∧
    (clear ⟨0, 512, [1, 2, 3]⟩).2.allocated = 0 ∧
    (clear ⟨0, 512, [1, 2, 3]⟩).2.update_buf = [1, 2, 3] ∧
    flush (clear ⟨0, 512, [1, 2, 3]⟩).2 = flush ⟨0, 512, [1, 2, 3]⟩ :=
  clear_preserves_staging ⟨0, 512, [1, 2, 3]⟩ (by decide)

/-- C5: for a block whose range fits the arena and a value byte image of
the block's size, `write_block` followed by `flush` transfers a buffer in
which exactly the value's bytes occupy
`[offset(), offset() + block_size())`, while every byte before and after
that range — in particular every other live block's range — is exactly
what the previous flush would have transferred. -/
theorem write_block_flush_spec (sizeT : Nat) (st : DynamicUniformBuffer)
    (b : DynamicUniformBufferBlock) (v : List Nat)
    (hbuf : st.update_buf.length = DYNAMIC_UNIFORM_BUFFER_SIZE)
    (hrange : b.addr + block_size sizeT ≤ DYNAMIC_UNIFORM_BUFFER_SIZE)
    (hv : v.length = block_size sizeT) :
    b.offset = b.addr ∧
    ∃ st', write_block sizeT st b v = some st' ∧
      (flush st').length = DYNAMIC_UNIFORM_BUFFER_SIZE ∧
      ((flush st').drop b.offset).take (block_size sizeT) = v ∧
      (flush st').take b.offset = (flush st).take b.offset ∧
      (flush st').drop (b.offset + block_size sizeT) =
        (flush st).drop (b.offset + block_size sizeT) := by
  have hsize : DYNAMIC_UNIFORM_BUFFER_SIZE = 16384 := rfl
  have hoff : b.offset = b.addr := by
    have h1 : b.addr < 2 ^ 32 := by rw [hsize] at hrange; omega
    simpa [DynamicUniformBufferBlock.offset] using Nat.mod_eq_of_lt h1
  have hstop : b.addr + block_size sizeT ≤ st.update_buf.length := by
    rw [hbuf]; exact hrange
  have ha : b.addr ≤ st.update_buf.length := le_trans (Nat.le_add_right _ _) hstop
  refine ⟨hoff, _, write_block_eq sizeT st b v hstop hv, ?_, ?_, ?_, ?_⟩
  · show (st.update_buf.take b.addr ++ v ++
      st.update_buf.drop (b.addr + block_size sizeT)).length =
        DYNAMIC_UNIFORM_BUFFER_SIZE
    rw [splice_length st.update_buf v b.addr (block_size sizeT) hstop hv, hbuf]
  · rw [hoff]
    exact splice_drop_take st.update_buf v b.addr (block_size sizeT) ha hv
  · rw [hoff]
    exact splice_take st.update_buf v b.addr (block_size sizeT) ha
  · rw [hoff]
    exact splice_drop st.update_buf v b.addr (block_size sizeT) hstop hv

/-- Witness for C5: writing 256 ones at the second block of a fresh
arena. -/
theorem write_block_flush_spec_witness :
    (DynamicUniformBufferBlock.offset ⟨256⟩ = 256) ∧
    ∃ st', write_block 256 DynamicUniformBuffer.new ⟨256⟩
        (List.replicate 256 1) = some st' ∧
      (flush st').length = DYNAMIC_UNIFORM_BUFFER_SIZE ∧
      ((flush st').drop (DynamicUniformBufferBlock.offset ⟨256⟩)).take
          (block_size 256) = List.replicate 256 1 ∧
      (flush st').take (DynamicUniformBufferBlock.offset ⟨256⟩) =
        (flush DynamicUniformBuffer.new).take
          (DynamicUniformBufferBlock.offset ⟨256⟩) ∧
      (flush st').drop (DynamicUniformBufferBlock.offset ⟨256⟩ + block_size 256) =
        (flush DynamicUniformBuffer.new).drop
          (DynamicUniformBufferBlock.offset ⟨256⟩ + block_size 256) :=
  write_block_flush_spec 256 DynamicUniformBuffer.new ⟨256⟩
    (List.replicate 256 1)
    (by simp [DynamicUniformBuffer.new])
    (by norm_num [block_size, DYNAMIC_UNIFORM_BUFFER_ALIGNMENT,
      DYNAMIC_UNIFORM_BUFFER_SIZE])
    (by simp only [List.length_replicate, block_size,
      DYNAMIC_UNIFORM_BUFFER_ALIGNMENT, Nat.max_self])

/-- C6: writing `v1` then `v2` to the same block and flushing yields
exactly the state of writing `v2` alone — the flushed buffer holds `v2`'s
bytes in the block's range with no residue of `v1`. -/
theorem write_twice_last_wins (sizeT : Nat) (st : DynamicUniformBuffer)
    (b : DynamicUniformBufferBlock) (v1 v2 : List Nat)
    (hbuf : st.update_buf.length = DYNAMIC_UNIFORM_BUFFER_SIZE)
    (hrange : b.addr + block_size sizeT ≤ DYNAMIC_UNIFORM_BUFFER_SIZE)
    (h1 : v1.length = block_size sizeT)
    (h2 : v2.length = block_size sizeT) :
    ∃ st1 st2, write_block sizeT st b v1 = some st1 ∧
      write_block sizeT st1 b v2 = some st2 ∧
      write_block sizeT st b v2 = some st2 ∧
      ((flush st2).drop b.offset).take (block_size sizeT) = v2 := by
  have hstop : b.addr + block_size sizeT ≤ st.update_buf.length := by
    rw [hbuf]; exact hrange
  have ha : b.addr ≤ st.update_buf.length := le_trans (Nat.le_add_right _ _) hstop
  have hoff : b.offset = b.addr := by
    have hsize : DYNAMIC_UNIFORM_BUFFER_SIZE = 16384 := rfl
    have hlt : b.addr < 2 ^ 32 := by rw [hsize] at hrange; omega
    simpa [DynamicUniformBufferBlock.offset] using Nat.mod_eq_of_lt hlt
  have e1 := write_block_eq sizeT st b v1 hstop h1
  have hlen1 : (st.update_buf.take b.addr ++ v1 ++
      st.update_buf.drop (b.addr + block_size sizeT)).length =
        st.update_buf.length :=
    splice_length st.update_buf v1 b.addr (block_size sizeT) hstop h1
  have hstop1 : b.addr + block_size sizeT ≤ (st.update_buf.take b.addr ++
      v1 ++ st.update_buf.drop (b.addr + block_size sizeT)).length := by
    rw [hlen1]; exact hstop
  have htk : (st.update_buf.take b.addr ++ v1 ++
      st.update_buf.drop (b.addr + block_size sizeT)).take b.addr =
        st.update_buf.take b.addr :=
    splice_take st.update_buf v1 b.addr (block_size sizeT) ha
  have hdr : (st.update_buf.take b.addr ++ v1 ++
      st.update_buf.drop (b.addr + block_size sizeT)).drop
        (b.addr + block_size sizeT) =
      st.update_buf.drop (b.addr + block_size sizeT) :=
    splice_drop st.update_buf v1 b.addr (block_size sizeT) hstop h1
  refine ⟨_, _, e1, write_block_eq sizeT _ b v2 hstop1 h2, ?_, ?_⟩
  · rw [write_block_eq sizeT st b v2 hstop h2, htk, hdr]
  · show ((( st.update_buf.take b.addr ++ v1 ++
        st.update_buf.drop (b.addr + block_size sizeT)).take b.addr ++ v2 ++
        (st.update_buf.take b.addr ++ v1 ++
          st.update_buf.drop (b.addr + block_size sizeT)).drop
            (b.addr + block_size sizeT)).drop b.offset).take
          (block_size sizeT) = v2
    rw [hoff]
    exact splice_drop_take _ v2 b.addr (block_size sizeT)
      (le_trans (Nat.le_add_right _ _) hstop1) h2

/-- Witness for C6: a 256-byte block written with all-ones then all-twos. -/
theorem write_twice_last_wins_witness :
    ∃ st1 st2, write_block 256 DynamicUniformBuffer.new ⟨0⟩
        (List.replicate 256 1) = some st1 ∧
      write_block 256 st1 ⟨0⟩ (List.replicate 256 2) = some st2 ∧
      write_block 256 DynamicUniformBuffer.new ⟨0⟩
        (List.replicate 256 2) = some st2 ∧
      ((flush st2).drop (DynamicUniformBufferBlock.offset ⟨0⟩)).take
        (block_size 256) = List.replicate 256 2 :=
  write_twice_last_wins 256 DynamicUniformBuffer.new ⟨0⟩
    (List.replicate 256 1) (List.replicate 256 2)
    (by simp [DynamicUniformBuffer.new])
    (by norm_num [block_size, DYNAMIC_UNIFORM_BUFFER_ALIGNMENT,
      DYNAMIC_UNIFORM_BUFFER_SIZE])
    (by simp only [List.length_replicate, block_size,
      DYNAMIC_UNIFORM_BUFFER_ALIGNMENT, Nat.max_self])
    (by simp only [List.length_replicate, block_size,
      DYNAMIC_UNIFORM_BUFFER_ALIGNMENT, Nat.max_self])

/-- Induction workhorse for C1: from any start state whose staging buffer
has full capacity, a sequence of `allocate` calls that fits the remaining
capacity succeeds, places the i-th block at `allocated + i * block_size()`,
and advances the cursor by the cumulative block sizes. -/
theorem allocate_seq_spec (sizeT : Nat) (vals : List (List Nat)) :
    ∀ st : DynamicUniformBuffer,
    st.update_buf.length = DYNAMIC_UNIFORM_BUFFER_SIZE →
    (∀ v ∈ vals, v.length = block_size sizeT) →
    st.allocated + vals.length * block_size sizeT ≤
      DYNAMIC_UNIFORM_BUFFER_SIZE →
    ∃ st' bs, allocate_seq sizeT st vals = some (st', bs) ∧
      bs.length = vals.length ∧
      (∀ i, (hi : i < bs.length) →
        (bs.get ⟨i, hi⟩).addr = st.allocated + i * block_size sizeT) ∧
      st'.allocated = st.allocated + vals.length * block_size sizeT ∧
      st'.update_buf.length = DYNAMIC_UNIFORM_BUFFER_SIZE := by
  induction vals with
  | nil =>
    intro st hbuf _ _
    refine ⟨st, [], rfl, rfl, ?_, by simp, hbuf⟩
    intro i hi
    exact absurd hi (by simp)
  | cons v vs ih =>
    intro st hbuf hlen hcap
    have hbs : v.length = block_size sizeT := hlen v (by simp)
    rw [List.length_cons, Nat.succ_mul] at hcap
    have hcap1 : st.allocated + block_size sizeT ≤
        DYNAMIC_UNIFORM_BUFFER_SIZE := by omega
    have hstop : st.allocated + block_size sizeT ≤ st.update_buf.length := by
      rw [hbuf]; exact hcap1
    have e := allocate_eq sizeT st v hcap1 hstop hbs
    have hw : (st.update_buf.take st.allocated ++ v ++
        st.update_buf.drop (st.allocated + block_size sizeT)).length =
          DYNAMIC_UNIFORM_BUFFER_SIZE := by
      rw [splice_length st.update_buf v st.allocated (block_size sizeT)
        hstop hbs, hbuf]
    obtain ⟨st', bsl, heq, hlen', haddr, halloc, hbuflen⟩ :=
      ih ({ outstanding := st.outstanding + 1
            allocated := st.allocated + block_size sizeT
            update_buf :=
              st.update_buf.take st.allocated ++ v ++
                st.update_buf.drop (st.allocated + block_size sizeT) })
        hw (fun w hwv => hlen w (by simp [hwv])) (by simp; omega)
    refine ⟨st', ⟨st.allocated⟩ :: bsl, ?_, ?_, ?_, ?_, hbuflen⟩
    · simp only [allocate_seq]
      rw [e]
      simp only [heq]
    · simp [hlen']
    · intro i hi
      cases i with
      | zero => simp
      | succ j =>
        have hj : j < bsl.length := by
          simp only [List.length_cons] at hi; omega
        have hthis : (bsl.get ⟨j, hj⟩).addr =
            st.allocated + block_size sizeT + j * block_size sizeT :=
          haddr j hj
        have hget : ((⟨st.allocated⟩ :: bsl).get ⟨j + 1, hi⟩ :
            DynamicUniformBufferBlock) = bsl.get ⟨j, hj⟩ := rfl
        rw [hget, hthis, Nat.succ_mul]
        omega
    · have halloc2 : st'.allocated =
          st.allocated + block_size sizeT + vs.length * block_size sizeT :=
        halloc
      rw [halloc2, List.length_cons, Nat.succ_mul]
      omega

/-- C1: for every sequence of `allocate` calls whose cumulative block sizes
stay at or below the 16384-byte capacity, starting from a state reached by
a successful clear (cursor 0), every call succeeds and the n-th returned
handle's `offset()` is (n-1) times `block_size()` — the sum of
`block_size()` over the prior allocations, so placements are monotonically
increasing and non-overlapping. -/
theorem allocate_seq_offsets (sizeT : Nat) (st : DynamicUniformBuffer)
    (vals : List (List Nat))
    (hbuf : st.update_buf.length = DYNAMIC_UNIFORM_BUFFER_SIZE)
    (hzero : st.allocated = 0)
    (hlen : ∀ v ∈ vals, v.length = block_size sizeT)
    (hcap : vals.length * block_size sizeT ≤ DYNAMIC_UNIFORM_BUFFER_SIZE) :
    ∃ st' bs, allocate_seq sizeT st vals = some (st', bs) ∧
      bs.length = vals.length ∧
      ∀ i, (hi : i < bs.length) →
        (bs.get ⟨i, hi⟩).offset = i * block_size sizeT := by
  obtain ⟨st', bs, heq, hlen', haddr, -, -⟩ :=
    allocate_seq_spec sizeT vals st hbuf hlen (by omega)
  refine ⟨st', bs, heq, hlen', ?_⟩
  intro i hi
  have ha := haddr i hi
  rw [hzero, Nat.zero_add] at ha
  have hle : i * block_size sizeT ≤ vals.length * block_size sizeT :=
    Nat.mul_le_mul_right _ (by omega)
  have hlt : (bs.get ⟨i, hi⟩).addr < 2 ^ 32 := by
    rw [ha]
    have hsz : DYNAMIC_UNIFORM_BUFFER_SIZE = 16384 := rfl
    rw [hsz] at hcap
    omega
  rw [DynamicUniformBufferBlock.offset, Nat.mod_eq_of_lt hlt, ha]

/-- Witness for C1: two 256-byte allocations from a fresh arena. -/
theorem allocate_seq_offsets_witness :
    ∃ st' bs, allocate_seq 256 DynamicUniformBuffer.new
        [List.replicate 256 1, List.replicate 256 2] = some (st', bs) ∧
      bs.length = [List.replicate 256 1, List.replicate 256 2].length ∧
      ∀ i, (hi : i < bs.length) →
        (bs.get ⟨i, hi⟩).offset = i * block_size 256 :=
  allocate_seq_offsets 256 DynamicUniformBuffer.new
    [List.replicate 256 1, List.replicate 256 2]
    (by simp only [DynamicUniformBuffer.new, List.length_replicate])
    rfl
    (by
      intro v hv
      simp only [List.mem_cons, List.not_mem_nil, or_false] at hv
      rcases hv with rfl | rfl <;>
        simp only [List.length_replicate, block_size,
          DYNAMIC_UNIFORM_BUFFER_ALIGNMENT, Nat.max_self])
    (by norm_num [block_size, DYNAMIC_UNIFORM_BUFFER_ALIGNMENT,
      DYNAMIC_UNIFORM_BUFFER_SIZE])

/-- C7: `record_draw` performs exactly, in order: (1) the write of the full
uniforms struct to the pipeline's uniform buffer, (2) setting the deferred
pipeline, (3) setting the full-screen-quad vertex buffer at slot 0,
(4) setting the renderer's bind group at group index 0 with an empty
dynamic-offset list, (5) one draw of vertices 0..6, instances 0..1. -/
theorem record_draw_effects (ML : Nat) (u : DeferredUniforms) :
    record_draw ML u =
      [RenderCmd.writeBuffer BufferId.deferredUniform 0
        (any_as_bytes_DeferredUniforms ML u),
       RenderCmd.setPipeline PipelineId.deferred,
       RenderCmd.setVertexBuffer 0 BufferId.quadVertex,
       RenderCmd.setBindGroup 0 BindGroupId.deferredRenderer [],
       RenderCmd.draw 0 6 0 1] := rfl

/-- The byte image of a `PointLight` is 16 bytes long. -/
theorem encode_PointLight_length (l : PointLight) :
    (encode_PointLight l).length = 16 := by
  simp [encode_PointLight, encode_u32]

/-- The byte image of the lights array is 16 bytes per light. -/
theorem encode_lights_length (ls : List PointLight) :
    (encode_lights ls).length = 16 * ls.length := by
  induction ls with
  | nil => rfl
  | cons l t ih =>
    simp only [encode_lights, List.length_append, List.length_cons,
      encode_PointLight_length l, ih]
    omega

/-- The byte image of a `DeferredUniforms` whose lights array has
`MAX_LIGHTS` entries is exactly `size_of::<DeferredUniforms>()` bytes. -/
theorem any_as_bytes_DeferredUniforms_length (ML : Nat)
    (u : DeferredUniforms) (hl : u.lights.length = ML) :
    (any_as_bytes_DeferredUniforms ML u).length =
      size_of_DeferredUniforms ML := by
  have hfields : (encode_mat u.inv_projection ++ encode_u32 u.light_count ++
      encode_pad u._pad ++ encode_lights u.lights).length = 80 + 16 * ML := by
    simp only [List.length_append, encode_mat, encode_row, encode_pad,
      encode_u32, List.length_cons, List.length_nil,
      encode_lights_length, hl]
  have hle : 80 + 16 * ML ≤ size_of_DeferredUniforms ML := by
    unfold size_of_DeferredUniforms
    omega
  simp only [any_as_bytes_DeferredUniforms, List.length_append,
    List.length_replicate, hfields]
  omega

/-- C8: the dedicated uniform buffer created by `DeferredPipeline::new` is
initialized with the byte image of a `DeferredUniforms` whose
`inv_projection` is the 4x4 identity matrix, whose `light_count` is 0,
whose padding words are zero, and whose `MAX_LIGHTS` light slots all hold
origin (0,0,0) and radius 0; its size is exactly
`size_of::<DeferredUniforms>()`. -/
theorem deferred_pipeline_new_buffer_contents (ML : Nat) :
    DeferredPipeline_new_uniform_buffer ML =
      any_as_bytes_DeferredUniforms ML
        { inv_projection := fun i j =>
            if i = j then f32_bits_one else f32_bits_zero
          light_count := 0
          _pad := fun _ => 0
          lights := List.replicate ML
            { origin := (0, 0, 0), radius := f32_bits_zero } } ∧
    (DeferredPipeline_new_uniform_buffer ML).length =
      size_of_DeferredUniforms ML := by
  constructor
  · rfl
  · exact any_as_bytes_DeferredUniforms_length ML _
      (by simp [deferred_initial_uniforms])

/-- C10: for every non-zero-sized element type accepted by the
construction assertion (`align_of::<T>() % 256 == 0`, with Rust's
guarantee that `align_of::<T>()` divides `size_of::<T>()`), `block_size()`
equals `size_of::<T>()` exactly, so the `copy_from_slice` in `write_block`
copies as many bytes as the block range holds and stays inside the
16384-byte staging buffer for every handle a successful `allocate`
returns — the slice copy never panics; for a zero-sized element the
construction assertion can still hold while `block_size()` is the 256-byte
alignment unit, differing from the 0-byte value image. -/
theorem block_size_matches_copy (sizeT alignT : Nat) (hpos : 0 < sizeT)
    (hassert : new_assertion alignT) (hdvd : alignT ∣ sizeT)
    (st : DynamicUniformBuffer) (v : List Nat) (hv : v.length = sizeT)
    (hbuf : st.update_buf.length = DYNAMIC_UNIFORM_BUFFER_SIZE)
    (hcap : st.allocated + block_size sizeT ≤ DYNAMIC_UNIFORM_BUFFER_SIZE) :
    block_size sizeT = sizeT ∧
    (∃ st' b, allocate sizeT st v = some (st', b) ∧
      b.addr + block_size sizeT ≤ DYNAMIC_UNIFORM_BUFFER_SIZE ∧
      ∀ w : List Nat, w.length = sizeT → write_block sizeT st' b w ≠ none) ∧
    block_size 0 = DYNAMIC_UNIFORM_BUFFER_ALIGNMENT := by
  have h256 : (256 : Nat) ∣ alignT := Nat.dvd_of_mod_eq_zero hassert
  have hsz : (256 : Nat) ∣ sizeT := h256.trans hdvd
  have hge : 256 ≤ sizeT := Nat.le_of_dvd hpos hsz
  have heq : block_size sizeT = sizeT := Nat.max_eq_right hge
  have hstop : st.allocated + block_size sizeT ≤ st.update_buf.length := by
    rw [hbuf]; exact hcap
  have hvb : v.length = block_size sizeT := by rw [heq]; exact hv
  refine ⟨heq, ⟨_, _, allocate_eq sizeT st v hcap hstop hvb, hcap, ?_⟩,
    Nat.max_eq_left (Nat.zero_le _)⟩
  intro w hw
  have hwb : w.length = block_size sizeT := by rw [heq]; exact hw
  have hwlen : (st.update_buf.take st.allocated ++ v ++
      st.update_buf.drop (st.allocated + block_size sizeT)).length =
        st.update_buf.length :=
    splice_length st.update_buf v st.allocated (block_size sizeT) hstop hvb
  have hstop2 : st.allocated + block_size sizeT ≤
      (st.update_buf.take st.allocated ++ v ++
        st.update_buf.drop (st.allocated + block_size sizeT)).length := by
    rw [hwlen]; exact hstop
  rw [write_block_eq sizeT _ _ w hstop2 hwb]
  simp

/-- Witness for C10 with a 512-byte element on a fresh arena. -/
theorem block_size_matches_copy_witness :
    block_size 512 = 512 ∧
    (∃ st' b, allocate 512 DynamicUniformBuffer.new
        (List.replicate 512 3) = some (st', b) ∧
      b.addr + block_size 512 ≤ DYNAMIC_UNIFORM_BUFFER_SIZE ∧
      ∀ w : List Nat, w.length = 512 →
        write_block 512 st' b w ≠ none) ∧
    block_size 0 = DYNAMIC_UNIFORM_BUFFER_ALIGNMENT :=
  block_size_matches_copy 512 256 (by decide) (by decide) (by decide)
    DynamicUniformBuffer.new (List.replicate 512 3)
    (by simp only [List.length_replicate])
    (by simp only [DynamicUniformBuffer.new, List.length_replicate])
    (by norm_num [DynamicUniformBuffer.new, block_size,
      DYNAMIC_UNIFORM_BUFFER_ALIGNMENT, DYNAMIC_UNIFORM_BUFFER_SIZE])

end Richter
